import Mathlib

/-!
Verification development for the CSORCA collision-avoidance simulation
(`csorca.py`).  The Python source is shallowly embedded over the real
numbers: numpy 2-vectors become pairs of reals, the scipy `minimize`
call inside `compute_heading` (an external library, not part of this
repository) is modelled as an uninterpreted solver parameter, and all
other functions are translated line by line from the source.
-/

namespace CSORCA

open Classical

/-- A numpy 2-vector: a pair of real numbers. -/
abbrev Vec := ℝ × ℝ

/-- Dot product of two 2-vectors, `u.dot(v)` in the source. -/
def dot (u v : Vec) : ℝ := u.1 * v.1 + u.2 * v.2

/-- Determinant of the 2x2 matrix whose rows are `u` and `v`,
`np.linalg.det(np.array((u, v)))` in the source. -/
def det2 (u v : Vec) : ℝ := u.1 * v.2 - u.2 * v.1

/-- Euclidean norm, `np.linalg.norm(v)` in the source. -/
noncomputable def norm2 (v : Vec) : ℝ := Real.sqrt (v.1 ^ 2 + v.2 ^ 2)

/-- Elementwise division of a numpy vector by a scalar, `v / r`. -/
noncomputable def sdiv (v : Vec) (r : ℝ) : Vec := (v.1 / r, v.2 / r)

/-- `is_inside_the_cone(point, pointA, pointB, v1, v2)` from the source:
`point`, referenced from `pointA`, lies on the same side of each edge
line as `pointB` does, sides compared by products of 2-D determinants. -/
def is_inside_the_cone (point pointA pointB v1 v2 : Vec) : Prop :=
  0 ≤ det2 (point - pointA) v1 * det2 (pointB - pointA) v1 ∧
  0 ≤ det2 (point - pointA) v2 * det2 (pointB - pointA) v2

/-- `is_inside_the_circle(point, center, radius)` from the source:
`np.sum((center - point)**2) <= radius**2`. -/
def is_inside_the_circle (point center : Vec) (radius : ℝ) : Prop :=
  (center.1 - point.1) ^ 2 + (center.2 - point.2) ^ 2 ≤ radius ^ 2

/-- A stored half-plane constraint `[coef_x, coef_y, threshold]`,
modelled as a coefficient vector together with the scalar threshold. -/
abbrev SemiPlan := Vec × ℝ

/-- The `Aircraft` object of the source: position, trajectory, heading,
destination and the per-step list of half-plane constraints. -/
@[ext]
structure Aircraft where
  position : Vec
  trajectory : List Vec
  heading : Vec
  destination : Vec
  semi_plan : List SemiPlan

instance : Inhabited Aircraft :=
  ⟨⟨(0, 0), [], (0, 0), (0, 0), []⟩⟩

/-- Local variable `a_b` of `detect_conflict`: `other.position - self.position`. -/
def relPos (a b : Aircraft) : Vec := b.position - a.position

/-- Local variable `vr` of `detect_conflict`: `self.heading - other.heading`. -/
def relVel (a b : Aircraft) : Vec := a.heading - b.heading

/-- Local variable `theta` of `detect_conflict`: `np.arctan(d/ro)` with
`ro = np.linalg.norm(a_b)`. -/
noncomputable def coneAngle (a b : Aircraft) (d : ℝ) : ℝ :=
  Real.arctan (d / norm2 (relPos a b))

/-- Local variable `a_t1` of `detect_conflict`: the matrix
`((cos θ, -sin θ), (sin θ, cos θ))` applied to `a_b`. -/
noncomputable def tangent1 (a b : Aircraft) (d : ℝ) : Vec :=
  (Real.cos (coneAngle a b d) * (relPos a b).1 -
     Real.sin (coneAngle a b d) * (relPos a b).2,
   Real.sin (coneAngle a b d) * (relPos a b).1 +
     Real.cos (coneAngle a b d) * (relPos a b).2)

/-- Local variable `a_t2` of `detect_conflict`: the matrix
`((cos θ, sin θ), (-sin θ, cos θ))` applied to `a_b`. -/
noncomputable def tangent2 (a b : Aircraft) (d : ℝ) : Vec :=
  (Real.cos (coneAngle a b d) * (relPos a b).1 +
     Real.sin (coneAngle a b d) * (relPos a b).2,
   -(Real.sin (coneAngle a b d)) * (relPos a b).1 +
     Real.cos (coneAngle a b d) * (relPos a b).2)

/-- `Aircraft.detect_conflict(self, other, d, tau)` from the source:
returns the conflict flag together with the geometric tuple
`(vr, a_t1, a_t2)`. -/
noncomputable def detect_conflict (a b : Aircraft) (d tau : ℝ) :
    Prop × (Vec × Vec × Vec) :=
  (is_inside_the_cone (a.position + relVel a b) a.position b.position
      (tangent1 a b d) (tangent2 a b d) ∧
    (is_inside_the_circle (relVel a b) (sdiv (relPos a b) tau) (d / tau) ∨
      ¬ is_inside_the_circle (relVel a b) ((0 : ℝ), (0 : ℝ)) ((relPos a b).1 / tau)),
   (relVel a b, tangent1 a b d, tangent2 a b d))

/-- `Aircraft.exhaust_vector(self, vr, a_t1, a_t2)` from the source,
including the boolean-arithmetic blending
`c1*(|c1| <= |c2|) + c2*(|c1| > |c2|)`. -/
noncomputable def exhaust_vector (vr a_t1 a_t2 : Vec) : Vec :=
  (if norm2 ((dot a_t1 vr / norm2 a_t1 ^ 2) • a_t1 - vr) ≤
      norm2 ((dot a_t2 vr / norm2 a_t2 ^ 2) • a_t2 - vr) then (1 : ℝ) else 0) •
    ((dot a_t1 vr / norm2 a_t1 ^ 2) • a_t1 - vr) +
  (if norm2 ((dot a_t2 vr / norm2 a_t2 ^ 2) • a_t2 - vr) <
      norm2 ((dot a_t1 vr / norm2 a_t1 ^ 2) • a_t1 - vr) then (1 : ℝ) else 0) •
    ((dot a_t2 vr / norm2 a_t2 ^ 2) • a_t2 - vr)

/-- `Aircraft.compute_semi_plan(self, other, d, tau)` from the source:
when a conflict is detected it yields the one-element constraint lists
`[p_ij]` and `[p_ji]` with `p_ij = (c, c . -(self.heading + c/2))` and
`p_ji = (-c, c . (other.heading - c/2))`; otherwise two empty lists. -/
noncomputable def compute_semi_plan (a b : Aircraft) (d tau : ℝ) :
    List SemiPlan × List SemiPlan :=
  if (detect_conflict a b d tau).1 then
    ([(exhaust_vector (detect_conflict a b d tau).2.1
          (detect_conflict a b d tau).2.2.1 (detect_conflict a b d tau).2.2.2,
       dot (exhaust_vector (detect_conflict a b d tau).2.1
            (detect_conflict a b d tau).2.2.1 (detect_conflict a b d tau).2.2.2)
         (-(a.heading +
             sdiv (exhaust_vector (detect_conflict a b d tau).2.1
               (detect_conflict a b d tau).2.2.1 (detect_conflict a b d tau).2.2.2) 2)))],
     [(-(exhaust_vector (detect_conflict a b d tau).2.1
          (detect_conflict a b d tau).2.2.1 (detect_conflict a b d tau).2.2.2),
       dot (exhaust_vector (detect_conflict a b d tau).2.1
            (detect_conflict a b d tau).2.2.1 (detect_conflict a b d tau).2.2.2)
         (b.heading -
           sdiv (exhaust_vector (detect_conflict a b d tau).2.1
             (detect_conflict a b d tau).2.2.1 (detect_conflict a b d tau).2.2.2) 2))])
  else ([], [])

/-- `Aircraft.compute_heading(self)` from the source.  With an empty
constraint list it returns the unit vector toward the destination.  The
non-empty branch calls scipy's `minimize` (trust-constr), an external
library whose floating-point iteration is not part of this repository;
it is modelled as an uninterpreted solver parameter. -/
noncomputable def compute_heading (solver : Aircraft → Vec) (a : Aircraft) : Vec :=
  if a.semi_plan = [] then
    sdiv (a.destination - a.position) (norm2 (a.destination - a.position))
  else solver a

/-- `Aircraft.reached_destination(self, epsilon)` from the source. -/
noncomputable def reached_destination (a : Aircraft) (epsilon : ℝ) : Prop :=
  norm2 (a.destination - a.position) ≤ epsilon

/-- One aircraft in `Simulation.move`: move only if the destination has
not been reached (default epsilon 3), then append the (possibly new)
position to the trajectory. -/
noncomputable def moveAircraft (ts : ℝ) (a : Aircraft) : Aircraft :=
  if reached_destination a 3 then
    { a with trajectory := a.trajectory ++ [a.position] }
  else
    { a with position := a.position + ts • a.heading,
             trajectory := a.trajectory ++ [a.position + ts • a.heading] }

/-- The `Simulation` object of the source: the aircraft list, the run
parameters and the cumulative counters. -/
@[ext]
structure Simulation where
  aircraft : List Aircraft
  d : ℝ
  tau : ℝ
  time_step : ℝ
  time : ℝ
  stepCount : ℕ
  alerts : ℕ
  separation_losses : ℕ

/-- The inner `for j in range(i+1, N)` loop of `run_one_step` for a fixed
outer index `i`: scan `self` against each later aircraft in order,
extending both constraint lists, and count the detected conflicts
(the `alerts` increment).  Returns the updated `self`, the updated list
of later aircraft, and the conflict count. -/
noncomputable def innerScan (self : Aircraft) (pending : List Aircraft) (d tau : ℝ) :
    Aircraft × List Aircraft × ℕ :=
  match pending with
  | [] => (self, [], 0)
  | b :: rest =>
    let alert : ℕ := if (detect_conflict self b d tau).1 then 1 else 0
    let p := compute_semi_plan self b d tau
    let self' := { self with semi_plan := self.semi_plan ++ p.1 }
    let b' := { b with semi_plan := b.semi_plan ++ p.2 }
    let r := innerScan self' rest d tau
    (r.1, b' :: r.2.1, alert + r.2.2)

/-- The outer `for i in range(N)` loop of `run_one_step`: for each
aircraft in turn, scan it against all later aircraft, then immediately
resolve its new heading from its accumulated constraints, clear its
constraint list, and fold its `reached_destination(epsilon=3)` flag into
`done`.  Returns the processed aircraft, the total alert increment and
the `done` flag. -/
noncomputable def outerLoop (solver : Aircraft → Vec) (d tau : ℝ) :
    List Aircraft → List Aircraft × ℕ × Prop
  | [] => ([], 0, True)
  | a :: rest =>
    let r := innerScan a rest d tau
    let a' := { r.1 with heading := compute_heading solver r.1, semi_plan := [] }
    let t := outerLoop solver d tau r.2.1
    (a' :: t.1, r.2.2 + t.2.1, reached_destination a' 3 ∧ t.2.2)
termination_by l => l.length
decreasing_by
  have h : ∀ (self : Aircraft) (pending : List Aircraft),
      (innerScan self pending d tau).2.1.length = pending.length := by
    intro self pending
    induction pending generalizing self with
    | nil => rfl
    | cons b pending' ih => simp [innerScan, ih]
  simp [h]

/-- The separation-loss tally of `run_one_step`: for every pair `i < j`
(after motion), count 1 when the distance is strictly below `d`. -/
noncomputable def countLossesFrom (d : ℝ) : List Aircraft → ℕ
  | [] => 0
  | a :: rest =>
    (rest.map fun b => if norm2 (a.position - b.position) < d then 1 else 0).sum +
      countLossesFrom d rest

/-- `Simulation.run_one_step(self)` from the source: the interleaved
scan/resolve loop, then the motion phase, the step/time counters, and
the separation-loss tally; returns the new state and the `done` flag. -/
noncomputable def run_one_step (solver : Aircraft → Vec) (s : Simulation) :
    Simulation × Prop :=
  let r := outerLoop solver s.d s.tau s.aircraft
  let moved := r.1.map (moveAircraft s.time_step)
  ({ s with aircraft := moved,
            stepCount := s.stepCount + 1,
            time := s.time + s.time_step,
            alerts := s.alerts + r.2.1,
            separation_losses := s.separation_losses + countLossesFrom s.d moved },
   r.2.2)

/-- The state after `k` calls of `run_one_step` (the loop of
`Simulation.run`). -/
noncomputable def afterSteps (solver : Aircraft → Vec) (s : Simulation) : ℕ → Simulation
  | 0 => s
  | Nat.succ k => (run_one_step solver (afterSteps solver s k)).1

/-- Modelled from the spec (Sections 4.6 and 9): phase one of the
strict two-phase protocol — scan every unordered pair in lexicographic
order, accumulating constraints and counting alerts, with no heading
ever reassigned during the scan. -/
noncomputable def scanPhase (d tau : ℝ) : List Aircraft → List Aircraft × ℕ
  | [] => ([], 0)
  | a :: rest =>
    let r := innerScan a rest d tau
    let t := scanPhase d tau r.2.1
    (r.1 :: t.1, r.2.2 + t.2)
termination_by l => l.length
decreasing_by
  have h : ∀ (self : Aircraft) (pending : List Aircraft),
      (innerScan self pending d tau).2.1.length = pending.length := by
    intro self pending
    induction pending generalizing self with
    | nil => rfl
    | cons b pending' ih => simp [innerScan, ih]
  simp [h]

/-- Modelled from the spec: phase two of the two-phase protocol —
resolve one agent's heading from its fully accumulated constraint set
and clear the set. -/
noncomputable def resolveAgent (solver : Aircraft → Vec) (a : Aircraft) : Aircraft :=
  { a with heading := compute_heading solver a, semi_plan := [] }

/-- Modelled from the spec: a full step of the strict two-phase
protocol — scan all pairs first, then resolve all agents, then move,
count metrics, and report `done`. -/
noncomputable def twoPhaseStep (solver : Aircraft → Vec) (s : Simulation) :
    Simulation × Prop :=
  let sc := scanPhase s.d s.tau s.aircraft
  let resolved := sc.1.map (resolveAgent solver)
  let moved := resolved.map (moveAircraft s.time_step)
  ({ s with aircraft := moved,
            stepCount := s.stepCount + 1,
            time := s.time + s.time_step,
            alerts := s.alerts + sc.2,
            separation_losses := s.separation_losses + countLossesFrom s.d moved },
   ∀ a ∈ sc.1, reached_destination a 3)

/-- Every unordered pair of a list, each pair listed exactly once, in
the lexicographic order of the source's nested index loops. -/
def allPairs {α : Type _} : List α → List (α × α)
  | [] => []
  | a :: rest => (rest.map fun b => (a, b)) ++ allPairs rest

/-- Number of unordered pairs of aircraft at distance strictly less
than `d`, stated over the explicit pair enumeration. -/
noncomputable def lossPairs (d : ℝ) (as : List Aircraft) : ℕ :=
  ((allPairs as).map fun p =>
    if norm2 (p.1.position - p.2.position) < d then 1 else 0).sum

/-- Rotation of a 2-vector by the angle `θ`. -/
noncomputable def rotVec (θ : ℝ) (v : Vec) : Vec :=
  (Real.cos θ * v.1 - Real.sin θ * v.2, Real.sin θ * v.1 + Real.cos θ * v.2)

/-- The conflict predicate as the specification words it: with
`Δp = other.position - self.position`, `vr = self.heading - other.heading`
and `θ = atan(d/|Δp|)`, the point `self.position + vr` lies inside the
cone with apex `self.position` whose edges are `Δp` rotated by `+θ` and
`-θ` and which contains `other.position`, and `vr` lies inside the disk
of center `Δp/tau` and radius `d/tau` or does not lie inside the disk
centered at the origin of radius `Δp.x/tau`. -/
noncomputable def conflictSpecPred (a b : Aircraft) (d tau : ℝ) : Prop :=
  is_inside_the_cone (a.position + (a.heading - b.heading)) a.position b.position
      (rotVec (Real.arctan (d / norm2 (b.position - a.position)))
        (b.position - a.position))
      (rotVec (-(Real.arctan (d / norm2 (b.position - a.position))))
        (b.position - a.position)) ∧
    (is_inside_the_circle (a.heading - b.heading)
        (sdiv (b.position - a.position) tau) (d / tau) ∨
      ¬ is_inside_the_circle (a.heading - b.heading) ((0 : ℝ), (0 : ℝ))
          ((b.position - a.position).1 / tau))

/-- The half-plane that the specification claims is appended for the
`other` member of a conflicting pair with exhaust vector `c`:
`(-c, (-c) . (other.heading - c/2))`. -/
noncomputable def claimedOtherPlane (b : Aircraft) (c : Vec) : SemiPlan :=
  (-c, dot (-c) (b.heading - sdiv c 2))

/-- The half-plane the source actually appends for the `other` member:
`(-c, c . (other.heading - c/2))`. -/
noncomputable def codeOtherPlane (b : Aircraft) (c : Vec) : SemiPlan :=
  (-c, dot c (b.heading - sdiv c 2))

/-- The half-plane appended for the `self` member (identical in source
and specification): `(c, c . -(self.heading + c/2))`. -/
noncomputable def codeSelfPlane (a : Aircraft) (c : Vec) : SemiPlan :=
  (c, dot c (-(a.heading + sdiv c 2)))

/-- A trivial stand-in solver for concrete runs in which the
constrained branch of `compute_heading` is never reached. -/
def solver0 : Aircraft → Vec := fun _ => ((0 : ℝ), (0 : ℝ))

/-- A one-aircraft simulation, as built by `Aircraft.__init__` and
`Simulation.__init__`. -/
def singleSim (pos h0 dest : Vec) (d tau ts : ℝ) : Simulation :=
  ⟨[⟨pos, [pos], h0, dest, []⟩], d, tau, ts, 0, 0, 0, 0⟩

/-- Concrete aircraft for the constraint-threshold counterexample:
at the origin, heading `(2,0)`, destination far to the right. -/
def acA : Aircraft := ⟨((0 : ℝ), (0 : ℝ)), [((0 : ℝ), (0 : ℝ))],
  ((2 : ℝ), (0 : ℝ)), ((100 : ℝ), (0 : ℝ)), []⟩

/-- Concrete aircraft for the constraint-threshold counterexample:
stationary at `(2,0)`. -/
def acB : Aircraft := ⟨((2 : ℝ), (0 : ℝ)), [((2 : ℝ), (0 : ℝ))],
  ((0 : ℝ), (0 : ℝ)), ((-100 : ℝ), (0 : ℝ)), []⟩

/-! ## Loop characterizations -/

/-- `compute_semi_plan` reads only the positions and headings of its two
arguments, so it is unchanged when `self`'s constraint list grows. -/
theorem compute_semi_plan_semi_plan_irrel (a b : Aircraft) (L : List SemiPlan)
    (d tau : ℝ) :
    compute_semi_plan { a with semi_plan := L } b d tau = compute_semi_plan a b d tau :=
  rfl

/-- `detect_conflict` also ignores the constraint lists. -/
theorem detect_conflict_semi_plan_irrel (a b : Aircraft) (L : List SemiPlan)
    (d tau : ℝ) :
    detect_conflict { a with semi_plan := L } b d tau = detect_conflict a b d tau :=
  rfl

/-- Closed form of the inner scan: `self` accumulates the `p_ij`
constraint lists of every pair it conflicts with, each later aircraft
gets its `p_ji` list appended, and the count is the number of pairs in
conflict. -/
theorem innerScan_eq (self : Aircraft) (pending : List Aircraft) (d tau : ℝ) :
    innerScan self pending d tau =
      ({ self with semi_plan :=
            self.semi_plan ++ (pending.map fun b => (compute_semi_plan self b d tau).1).flatten },
       pending.map fun b =>
         { b with semi_plan := b.semi_plan ++ (compute_semi_plan self b d tau).2 },
       (pending.map fun b => if (detect_conflict self b d tau).1 then 1 else 0).sum) := by
  induction pending generalizing self with
  | nil => simp [innerScan]
  | cons b rest ih =>
    simp only [innerScan, ih, List.map_cons, List.flatten_cons, List.sum_cons]
    simp [compute_semi_plan_semi_plan_irrel, detect_conflict_semi_plan_irrel,
      Prod.ext_iff, Aircraft.mk.injEq, List.append_assoc]

/-- The inner scan preserves the length of the pending list. -/
theorem innerScan_length (self : Aircraft) (pending : List Aircraft) (d tau : ℝ) :
    (innerScan self pending d tau).2.1.length = pending.length := by
  rw [innerScan_eq]; simp

/-- The interleaved loop of the source equals the two-phase protocol:
scan everything, then resolve every agent, with the same alert count
and the same `done` predicate. -/
theorem outerLoop_eq_scanPhase (solver : Aircraft → Vec) (d tau : ℝ)
    (l : List Aircraft) :
    outerLoop solver d tau l =
      ((scanPhase d tau l).1.map (resolveAgent solver),
       (scanPhase d tau l).2,
       ∀ a ∈ (scanPhase d tau l).1, reached_destination a 3) := by
  match l with
  | [] =>
    simp only [outerLoop, scanPhase, List.map_nil]
    simp [eq_iff_iff]
  | a :: rest =>
    have ih := outerLoop_eq_scanPhase solver d tau (innerScan a rest d tau).2.1
    simp only [outerLoop, scanPhase, ih, List.map_cons]
    simp [eq_iff_iff, List.forall_mem_cons, resolveAgent, reached_destination]
termination_by l.length
decreasing_by simp [innerScan_length]

/-- The scan phase changes no position and no destination. -/
theorem scanPhase_map_pos_dest (d tau : ℝ) (l : List Aircraft) :
    (scanPhase d tau l).1.map (fun a => (a.position, a.destination)) =
      l.map (fun a => (a.position, a.destination)) := by
  match l with
  | [] => simp [scanPhase]
  | a :: rest =>
    have ih := scanPhase_map_pos_dest d tau (innerScan a rest d tau).2.1
    simp only [innerScan_eq, List.map_map] at ih
    simp only [scanPhase, innerScan_eq, List.map_cons, List.map_map, ih]
    rfl
termination_by l.length
decreasing_by simp [innerScan_length]

/-- `reached_destination` only looks at positions and destinations, so a
universally quantified `reached_destination` transfers along lists that
agree on those fields. -/
theorem forall_reached_congr {l₁ l₂ : List Aircraft} (epsilon : ℝ)
    (h : l₁.map (fun a => (a.position, a.destination)) =
         l₂.map (fun a => (a.position, a.destination))) :
    (∀ a ∈ l₁, reached_destination a epsilon) ↔
      (∀ a ∈ l₂, reached_destination a epsilon) := by
  have key : ∀ l : List Aircraft, (∀ a ∈ l, reached_destination a epsilon) ↔
      (∀ q ∈ l.map (fun a => (a.position, a.destination)),
        norm2 (q.2 - q.1) ≤ epsilon) := by
    intro l
    constructor
    · rintro H q hq
      obtain ⟨a, ha, rfl⟩ := List.mem_map.1 hq
      exact H a ha
    · intro H a ha
      exact H (a.position, a.destination) (List.mem_map_of_mem _ ha)
  rw [key l₁, key l₂, h]

/-- The `done` flag of a step holds iff every aircraft is within 3
units of its destination at the start of the step (the check runs
before the motion phase). -/
theorem run_one_step_done_iff (solver : Aircraft → Vec) (s : Simulation) :
    (run_one_step solver s).2 ↔ ∀ a ∈ s.aircraft, reached_destination a 3 := by
  have h : (run_one_step solver s).2 =
      (outerLoop solver s.d s.tau s.aircraft).2.2 := rfl
  rw [h, outerLoop_eq_scanPhase]
  exact forall_reached_congr 3 (scanPhase_map_pos_dest s.d s.tau s.aircraft)

/-- The source's nested separation-loss tally equals the count over the
explicit enumeration of unordered pairs. -/
theorem countLossesFrom_eq_lossPairs (d : ℝ) (as : List Aircraft) :
    countLossesFrom d as = lossPairs d as := by
  induction as with
  | nil => rfl
  | cons a rest ih =>
    simp only [countLossesFrom, lossPairs, allPairs, List.map_append, List.sum_append,
      List.map_map]
    rw [show lossPairs d rest =
      ((allPairs rest).map fun p =>
        if norm2 (p.1.position - p.2.position) < d then 1 else 0).sum from rfl] at ih
    rw [ih]
    rfl

/-! ## Vector lemmas -/

/-- Scalar division is scalar multiplication by the inverse. -/
theorem sdiv_eq_smul (v : Vec) (r : ℝ) : sdiv v r = r⁻¹ • v := by
  simp [sdiv, Prod.ext_iff, div_eq_inv_mul]

/-- The norm is nonnegative. -/
theorem norm2_nonneg (v : Vec) : 0 ≤ norm2 v := Real.sqrt_nonneg _

/-- The norm vanishes exactly on the zero vector. -/
theorem norm2_eq_zero_iff (v : Vec) : norm2 v = 0 ↔ v = 0 := by
  rw [norm2, Real.sqrt_eq_zero (by positivity)]
  constructor
  · intro h
    have h1 : v.1 = 0 ∧ v.2 = 0 := by
      constructor <;> nlinarith [sq_nonneg v.1, sq_nonneg v.2]
    exact Prod.ext h1.1 h1.2
  · intro h
    rw [h]
    norm_num [Prod.fst_zero, Prod.snd_zero]

/-- The norm of a nonzero vector is positive. -/
theorem norm2_pos_of_ne (v : Vec) (hv : v ≠ 0) : 0 < norm2 v :=
  lt_of_le_of_ne (norm2_nonneg v) fun h => hv ((norm2_eq_zero_iff v).1 h.symm)

/-- The norm is absolutely homogeneous. -/
theorem norm2_smul (r : ℝ) (v : Vec) : norm2 (r • v) = |r| * norm2 v := by
  rw [norm2, norm2, Prod.smul_fst, Prod.smul_snd, smul_eq_mul, smul_eq_mul]
  rw [show (r * v.1) ^ 2 + (r * v.2) ^ 2 = r ^ 2 * (v.1 ^ 2 + v.2 ^ 2) by ring]
  rw [Real.sqrt_mul (sq_nonneg r), Real.sqrt_sq_eq_abs]

/-- Norm of a vector on the x-axis. -/
theorem norm2_axis (x : ℝ) : norm2 (x, (0 : ℝ)) = |x| := by
  rw [norm2]
  simp [Real.sqrt_sq_eq_abs]

/-- Normalizing a nonzero vector yields a unit vector. -/
theorem norm2_sdiv_norm (v : Vec) (hv : v ≠ 0) : norm2 (sdiv v (norm2 v)) = 1 := by
  have hpos := norm2_pos_of_ne v hv
  rw [sdiv_eq_smul, norm2_smul, abs_inv, abs_of_pos hpos, inv_mul_cancel₀ (ne_of_gt hpos)]

/-- A nonzero vector is its norm times its normalization. -/
theorem smul_norm2_sdiv (v : Vec) (hv : v ≠ 0) : norm2 v • sdiv v (norm2 v) = v := by
  have hpos := norm2_pos_of_ne v hv
  rw [sdiv_eq_smul, smul_smul, mul_inv_cancel₀ (ne_of_gt hpos), one_smul]

/-! ## Single-aircraft steps -/

/-- One step of a single-aircraft simulation: resolve the heading, move,
bump the counters; alerts and separation losses are untouched and the
returned `done` flag is the pre-move `reached_destination` test. -/
theorem run_one_step_single (solver : Aircraft → Vec) (s : Simulation) (a : Aircraft)
    (ha : s.aircraft = [a]) :
    run_one_step solver s =
      ({ s with
          aircraft := [moveAircraft s.time_step (resolveAgent solver a)],
          stepCount := s.stepCount + 1,
          time := s.time + s.time_step },
       reached_destination a 3) := by
  simp [run_one_step, ha, outerLoop, innerScan, countLossesFrom, resolveAgent,
    Prod.ext_iff, eq_iff_iff, reached_destination]

/-- A single-aircraft run stays single-aircraft and never accumulates
alerts or separation losses. -/
theorem single_agent_alerts (solver : Aircraft → Vec) (s : Simulation) (a : Aircraft)
    (ha : s.aircraft = [a]) :
    ∀ k, (afterSteps solver s k).alerts = s.alerts ∧
      (afterSteps solver s k).separation_losses = s.separation_losses ∧
      ∃ a', (afterSteps solver s k).aircraft = [a'] := by
  intro k
  induction k with
  | zero => exact ⟨rfl, rfl, a, ha⟩
  | succ k ih =>
    obtain ⟨h1, h2, a', ha'⟩ := ih
    have hk : afterSteps solver s (k + 1) =
        (run_one_step solver (afterSteps solver s k)).1 := rfl
    rw [hk, run_one_step_single solver _ a' ha']
    exact ⟨h1, h2, _, rfl⟩

/-- Subtracting a point on the ray from `pos` toward `dest` leaves a
multiple of the unit direction. -/
theorem dest_sub_ray (pos dest : Vec) (hne : dest - pos ≠ 0) (r : ℝ) :
    dest - (pos + r • sdiv (dest - pos) (norm2 (dest - pos))) =
      (norm2 (dest - pos) - r) • sdiv (dest - pos) (norm2 (dest - pos)) := by
  rw [sub_smul, smul_norm2_sdiv _ hne, sub_add_eq_sub_sub, sub_right_comm]

/-- Distance from a point on the ray to the destination. -/
theorem norm2_dest_sub_ray (pos dest : Vec) (hne : dest - pos ≠ 0) (r : ℝ) :
    norm2 (dest - (pos + r • sdiv (dest - pos) (norm2 (dest - pos)))) =
      |norm2 (dest - pos) - r| := by
  rw [dest_sub_ray pos dest hne r, norm2_smul, norm2_sdiv_norm _ hne, mul_one]

/-- While every step so far started farther than 3 units from the
destination, a single-aircraft simulation flies the straight ray toward
its destination at one unit-heading step per call: explicit closed form
of the full state after `k` steps. -/
theorem single_agent_invariant (solver : Aircraft → Vec) (pos dest h0 : Vec)
    (d tau ts : ℝ) (hne : dest - pos ≠ 0) :
    ∀ k : ℕ, (∀ j : ℕ, j < k → 3 < norm2 (dest - pos) - (j : ℝ) * ts) →
    afterSteps solver (singleSim pos h0 dest d tau ts) k =
      { aircraft := [⟨pos + ((k : ℝ) * ts) • sdiv (dest - pos) (norm2 (dest - pos)),
                     [pos] ++ (List.range k).map
                       (fun i => pos +
                         (((i : ℝ) + 1) * ts) • sdiv (dest - pos) (norm2 (dest - pos))),
                     if k = 0 then h0 else sdiv (dest - pos) (norm2 (dest - pos)),
                     dest, []⟩],
        d := d, tau := tau, time_step := ts, time := (k : ℝ) * ts, stepCount := k,
        alerts := 0, separation_losses := 0 } := by
  intro k
  induction k with
  | zero =>
    intro _
    simp [afterSteps, singleSim]
  | succ k ih =>
    intro hk
    have hinv := ih fun j hj => hk j (Nat.lt_succ_of_lt hj)
    have hfar : 3 < norm2 (dest - pos) - (k : ℝ) * ts := hk k (Nat.lt_succ_self k)
    have hpos : (0 : ℝ) < norm2 (dest - pos) - (k : ℝ) * ts := by linarith
    have h1 : afterSteps solver (singleSim pos h0 dest d tau ts) (k + 1) =
        (run_one_step solver (afterSteps solver (singleSim pos h0 dest d tau ts) k)).1 :=
      rfl
    rw [h1, hinv, run_one_step_single solver _ _ rfl]
    have hch : compute_heading solver
        (⟨pos + ((k : ℝ) * ts) • sdiv (dest - pos) (norm2 (dest - pos)),
          [pos] ++ (List.range k).map
            (fun i => pos + (((i : ℝ) + 1) * ts) • sdiv (dest - pos) (norm2 (dest - pos))),
          if k = 0 then h0 else sdiv (dest - pos) (norm2 (dest - pos)),
          dest, []⟩ : Aircraft) = sdiv (dest - pos) (norm2 (dest - pos)) := by
      rw [compute_heading, if_pos rfl]
      show sdiv (dest - (pos + ((k : ℝ) * ts) • sdiv (dest - pos) (norm2 (dest - pos))))
          (norm2 (dest - (pos + ((k : ℝ) * ts) • sdiv (dest - pos) (norm2 (dest - pos))))) =
        sdiv (dest - pos) (norm2 (dest - pos))
      rw [norm2_dest_sub_ray pos dest hne, dest_sub_ray pos dest hne,
        abs_of_pos hpos, sdiv_eq_smul, smul_smul, inv_mul_cancel₀ (ne_of_gt hpos),
        one_smul]
    have hnr : ¬ reached_destination
        (resolveAgent solver
          (⟨pos + ((k : ℝ) * ts) • sdiv (dest - pos) (norm2 (dest - pos)),
            [pos] ++ (List.range k).map
              (fun i => pos + (((i : ℝ) + 1) * ts) • sdiv (dest - pos) (norm2 (dest - pos))),
            if k = 0 then h0 else sdiv (dest - pos) (norm2 (dest - pos)),
            dest, []⟩ : Aircraft)) 3 := by
      rw [resolveAgent, reached_destination]
      show ¬ norm2 (dest - (pos + ((k : ℝ) * ts) • sdiv (dest - pos) (norm2 (dest - pos)))) ≤ 3
      rw [norm2_dest_sub_ray pos dest hne, abs_of_pos hpos]
      linarith
    rw [moveAircraft, if_neg hnr]
    have hmove : (pos + ((k : ℝ) * ts) • sdiv (dest - pos) (norm2 (dest - pos))) +
        ts • sdiv (dest - pos) (norm2 (dest - pos)) =
        pos + (((k : ℝ) + 1) * ts) • sdiv (dest - pos) (norm2 (dest - pos)) := by
      rw [add_assoc, ← add_smul]
      ring_nf
    simp only [resolveAgent, hch]
    simp [Simulation.mk.injEq, Aircraft.mk.injEq, hmove, List.range_succ,
      List.map_append, List.append_assoc, Nat.cast_succ]
    ring

/-! ## Symmetry of conflict detection -/

/-- The norm is invariant under negation. -/
theorem norm2_neg (v : Vec) : norm2 (-v) = norm2 v := by
  rw [show -v = (-1 : ℝ) • v from (neg_one_smul ℝ v).symm, norm2_smul]
  norm_num

/-- Negating both rows leaves a 2x2 determinant unchanged. -/
theorem det2_neg_neg (u v : Vec) : det2 (-u) (-v) = det2 u v := by
  simp only [det2, Prod.fst_neg, Prod.snd_neg]
  ring

/-- Swapping the two aircraft negates the relative position. -/
theorem relPos_symm (a b : Aircraft) : relPos b a = -(relPos a b) := by
  rw [relPos, relPos, neg_sub]

/-- Swapping the two aircraft negates the relative velocity. -/
theorem relVel_symm (a b : Aircraft) : relVel b a = -(relVel a b) := by
  rw [relVel, relVel, neg_sub]

/-- The cone half-angle is symmetric in the two aircraft. -/
theorem coneAngle_symm (a b : Aircraft) (d : ℝ) : coneAngle b a d = coneAngle a b d := by
  rw [coneAngle, coneAngle, relPos_symm, norm2_neg]

/-- Swapping the two aircraft negates the first tangent direction. -/
theorem tangent1_symm (a b : Aircraft) (d : ℝ) : tangent1 b a d = -(tangent1 a b d) := by
  rw [tangent1, tangent1, coneAngle_symm, relPos_symm]
  simp only [Prod.ext_iff, Prod.fst_neg, Prod.snd_neg]
  constructor <;> ring

/-- Swapping the two aircraft negates the second tangent direction. -/
theorem tangent2_symm (a b : Aircraft) (d : ℝ) : tangent2 b a d = -(tangent2 a b d) := by
  rw [tangent2, tangent2, coneAngle_symm, relPos_symm]
  simp only [Prod.ext_iff, Prod.fst_neg, Prod.snd_neg]
  constructor <;> ring

/-- The conflict flag is symmetric in the two aircraft: negating the
relative position and velocity preserves the cone test and both disk
tests. -/
theorem detect_conflict_symm_flag (a b : Aircraft) (d tau : ℝ) :
    ((detect_conflict b a d tau).1 ↔ (detect_conflict a b d tau).1) := by
  simp only [detect_conflict]
  have hc : is_inside_the_cone (b.position + relVel b a) b.position a.position
      (tangent1 b a d) (tangent2 b a d) ↔
      is_inside_the_cone (a.position + relVel a b) a.position b.position
        (tangent1 a b d) (tangent2 a b d) := by
    rw [is_inside_the_cone, is_inside_the_cone, add_sub_cancel_left,
      add_sub_cancel_left, tangent1_symm, tangent2_symm, relVel_symm,
      show a.position - b.position = -(b.position - a.position) from (neg_sub _ _).symm,
      det2_neg_neg, det2_neg_neg, det2_neg_neg, det2_neg_neg]
  have h1 : is_inside_the_circle (relVel b a) (sdiv (relPos b a) tau) (d / tau) ↔
      is_inside_the_circle (relVel a b) (sdiv (relPos a b) tau) (d / tau) := by
    rw [relVel_symm, relPos_symm, is_inside_the_circle, is_inside_the_circle, sdiv, sdiv]
    have e : ((-relPos a b).1 / tau - (-relVel a b).1) ^ 2 +
        ((-relPos a b).2 / tau - (-relVel a b).2) ^ 2 =
        ((relPos a b).1 / tau - (relVel a b).1) ^ 2 +
          ((relPos a b).2 / tau - (relVel a b).2) ^ 2 := by
      simp only [Prod.fst_neg, Prod.snd_neg]
      ring
    rw [e]
  have h2 : is_inside_the_circle (relVel b a) ((0 : ℝ), (0 : ℝ))
      ((relPos b a).1 / tau) ↔
      is_inside_the_circle (relVel a b) ((0 : ℝ), (0 : ℝ)) ((relPos a b).1 / tau) := by
    rw [relVel_symm, relPos_symm, is_inside_the_circle, is_inside_the_circle]
    have e1 : ((0 : ℝ) - (-relVel a b).1) ^ 2 + ((0 : ℝ) - (-relVel a b).2) ^ 2 =
        ((0 : ℝ) - (relVel a b).1) ^ 2 + ((0 : ℝ) - (relVel a b).2) ^ 2 := by
      simp only [Prod.fst_neg, Prod.snd_neg]
      ring
    have e2 : ((-relPos a b).1 / tau) ^ 2 = ((relPos a b).1 / tau) ^ 2 := by
      simp only [Prod.fst_neg]
      ring
    rw [show ((0 : ℝ), (0 : ℝ)).1 = (0 : ℝ) from rfl,
      show ((0 : ℝ), (0 : ℝ)).2 = (0 : ℝ) from rfl, e1, e2]
  rw [hc, h1, h2]

/-- The `done` flag of a single-aircraft step is the pre-move
`reached_destination` test of that aircraft. -/
theorem run_one_step_single_done (solver : Aircraft → Vec) (s : Simulation)
    (a : Aircraft) (ha : s.aircraft = [a]) :
    ((run_one_step solver s).2 ↔ reached_destination a 3) := by
  rw [run_one_step_single solver s a ha]

/-! ## Claim theorems -/

/-- Claim C2: within one call of `run_one_step`, every pairwise conflict
detection and constraint computation reads only start-of-step headings
and positions (headings are reassigned only after all pairs involving
that aircraft were scanned), so the whole step — each agent's
accumulated constraint set at the moment its heading is computed, the
alert increment, and the final state — equals the strict two-phase
protocol that scans all pairs first and then resolves all agents, for
every solver; in particular the result does not depend on the
interleaving of the agent iteration. -/
theorem C2_step_equals_two_phase (solver : Aircraft → Vec) (s : Simulation) :
    run_one_step solver s = twoPhaseStep solver s := by
  simp only [run_one_step, twoPhaseStep, outerLoop_eq_scanPhase]

/-- Claim C3 (amended): `run_one_step` returns `done = true` iff every
aircraft's distance to its destination is at most the fixed epsilon 3
at the moment of the check, which happens before the motion phase —
i.e. at the start-of-step positions, not the post-move ones. -/
theorem C3_done_iff_pre_move (solver : Aircraft → Vec) (s : Simulation) :
    ((run_one_step solver s).2 ↔ ∀ a ∈ s.aircraft, reached_destination a 3) :=
  run_one_step_done_iff solver s

/-- Claim C3 counterexample: a single aircraft 4 units from its
destination moves to distance 1 during the step, so after the motion
phase every agent is within epsilon 3, yet the step returns
`done = false` because the check ran before the move. -/
theorem C3_counterexample :
    ¬ (run_one_step solver0
        (singleSim ((0 : ℝ), (0 : ℝ)) ((1 : ℝ), (0 : ℝ)) ((4 : ℝ), (0 : ℝ)) 1000 3 3)).2 ∧
    (run_one_step solver0
        (singleSim ((0 : ℝ), (0 : ℝ)) ((1 : ℝ), (0 : ℝ)) ((4 : ℝ), (0 : ℝ)) 1000 3 3)).1.aircraft.map
      (fun a => (a.position, a.destination)) =
      [(((3 : ℝ), (0 : ℝ)), ((4 : ℝ), (0 : ℝ)))] ∧
    norm2 (((4 : ℝ), (0 : ℝ)) - ((3 : ℝ), (0 : ℝ))) ≤ 3 := by
  have hs : (singleSim ((0 : ℝ), (0 : ℝ)) ((1 : ℝ), (0 : ℝ)) ((4 : ℝ), (0 : ℝ)) 1000 3 3).aircraft
      = [⟨((0 : ℝ), (0 : ℝ)), [((0 : ℝ), (0 : ℝ))], ((1 : ℝ), (0 : ℝ)), ((4 : ℝ), (0 : ℝ)), []⟩] :=
    rfl
  rw [run_one_step_single solver0 _ _ hs]
  have hsub4 : ((4 : ℝ), (0 : ℝ)) - ((0 : ℝ), (0 : ℝ)) = ((4 : ℝ), (0 : ℝ)) := by
    simp [Prod.mk_sub_mk]
  have hch : compute_heading solver0
      (⟨((0 : ℝ), (0 : ℝ)), [((0 : ℝ), (0 : ℝ))], ((1 : ℝ), (0 : ℝ)), ((4 : ℝ), (0 : ℝ)), []⟩ :
        Aircraft) = ((1 : ℝ), (0 : ℝ)) := by
    rw [compute_heading, if_pos rfl]
    show sdiv (((4 : ℝ), (0 : ℝ)) - ((0 : ℝ), (0 : ℝ)))
        (norm2 (((4 : ℝ), (0 : ℝ)) - ((0 : ℝ), (0 : ℝ)))) = ((1 : ℝ), (0 : ℝ))
    rw [hsub4, norm2_axis]
    norm_num [sdiv, Prod.ext_iff]
  have hnr : ¬ reached_destination
      (⟨((0 : ℝ), (0 : ℝ)), [((0 : ℝ), (0 : ℝ))], ((1 : ℝ), (0 : ℝ)), ((4 : ℝ), (0 : ℝ)), []⟩ :
        Aircraft) 3 := by
    rw [reached_destination]
    show ¬ norm2 (((4 : ℝ), (0 : ℝ)) - ((0 : ℝ), (0 : ℝ))) ≤ 3
    rw [hsub4, norm2_axis]
    norm_num
  refine ⟨hnr, ?_, ?_⟩
  · simp only [resolveAgent, hch]
    have hnr' : ¬ reached_destination
        (⟨((0 : ℝ), (0 : ℝ)), [((0 : ℝ), (0 : ℝ))], ((1 : ℝ), (0 : ℝ)), ((4 : ℝ), (0 : ℝ)), []⟩ :
          Aircraft) 3 := hnr
    simp only [moveAircraft, if_neg hnr']
    simp [singleSim, Prod.mk_add_mk, Prod.smul_mk, smul_eq_mul]
  · rw [show ((4 : ℝ), (0 : ℝ)) - ((3 : ℝ), (0 : ℝ)) = ((1 : ℝ), (0 : ℝ)) from by
      norm_num [Prod.mk_sub_mk], norm2_axis]
    norm_num

/-- Claim C6: the conflict flag of `detect_conflict` holds exactly when
the relative-velocity point lies in the cone spanned by the relative
position rotated by the half-angle in both directions, and either the
lookahead disk test passes or the origin-centred disk test (whose
radius is literally the x-component of the relative position over tau)
fails. -/
theorem C6_detect_conflict_characterization (a b : Aircraft) (d tau : ℝ) :
    ((detect_conflict a b d tau).1 ↔ conflictSpecPred a b d tau) := by
  simp only [detect_conflict, conflictSpecPred]
  have ht1 : tangent1 a b d =
      rotVec (Real.arctan (d / norm2 (b.position - a.position)))
        (b.position - a.position) := by
    rw [tangent1, rotVec, coneAngle, relPos]
  have ht2 : tangent2 a b d =
      rotVec (-(Real.arctan (d / norm2 (b.position - a.position))))
        (b.position - a.position) := by
    rw [tangent2, rotVec, coneAngle, relPos]
    simp only [Real.cos_neg, Real.sin_neg, Prod.ext_iff]
    constructor <;> ring
  rw [ht1, ht2]
  exact Iff.rfl

/-- Claim C7: with nonzero tangent vectors, `exhaust_vector` returns
exactly one of the two candidate corrections, and its norm is the
minimum of the two candidates' norms. -/
theorem C7_exhaust_vector_min (vr t1 t2 : Vec) (h1 : t1 ≠ 0) (h2 : t2 ≠ 0) :
    (exhaust_vector vr t1 t2 = (dot t1 vr / norm2 t1 ^ 2) • t1 - vr ∨
      exhaust_vector vr t1 t2 = (dot t2 vr / norm2 t2 ^ 2) • t2 - vr) ∧
    norm2 (exhaust_vector vr t1 t2) =
      min (norm2 ((dot t1 vr / norm2 t1 ^ 2) • t1 - vr))
          (norm2 ((dot t2 vr / norm2 t2 ^ 2) • t2 - vr)) := by
  rw [exhaust_vector]
  by_cases hc : norm2 ((dot t1 vr / norm2 t1 ^ 2) • t1 - vr) ≤
      norm2 ((dot t2 vr / norm2 t2 ^ 2) • t2 - vr)
  · rw [if_pos hc, if_neg (not_lt.2 hc), one_smul, zero_smul, add_zero]
    exact ⟨Or.inl rfl, (min_eq_left hc).symm⟩
  · rw [if_neg hc, if_pos (lt_of_not_le hc), zero_smul, one_smul, zero_add]
    exact ⟨Or.inr rfl, (min_eq_right (le_of_lt (lt_of_not_le hc))).symm⟩

/-- Witness for C7 at `vr = (1,1)`, `t1 = (1,0)`, `t2 = (0,1)`. -/
theorem C7_exhaust_vector_min_witness :
    (((1 : ℝ), (0 : ℝ)) ≠ (0 : Vec) ∧ ((0 : ℝ), (1 : ℝ)) ≠ (0 : Vec)) ∧
    ((exhaust_vector ((1 : ℝ), (1 : ℝ)) ((1 : ℝ), (0 : ℝ)) ((0 : ℝ), (1 : ℝ)) =
        (dot ((1 : ℝ), (0 : ℝ)) ((1 : ℝ), (1 : ℝ)) / norm2 ((1 : ℝ), (0 : ℝ)) ^ 2) •
          ((1 : ℝ), (0 : ℝ)) - ((1 : ℝ), (1 : ℝ)) ∨
      exhaust_vector ((1 : ℝ), (1 : ℝ)) ((1 : ℝ), (0 : ℝ)) ((0 : ℝ), (1 : ℝ)) =
        (dot ((0 : ℝ), (1 : ℝ)) ((1 : ℝ), (1 : ℝ)) / norm2 ((0 : ℝ), (1 : ℝ)) ^ 2) •
          ((0 : ℝ), (1 : ℝ)) - ((1 : ℝ), (1 : ℝ))) ∧
    norm2 (exhaust_vector ((1 : ℝ), (1 : ℝ)) ((1 : ℝ), (0 : ℝ)) ((0 : ℝ), (1 : ℝ))) =
      min (norm2 ((dot ((1 : ℝ), (0 : ℝ)) ((1 : ℝ), (1 : ℝ)) / norm2 ((1 : ℝ), (0 : ℝ)) ^ 2) •
            ((1 : ℝ), (0 : ℝ)) - ((1 : ℝ), (1 : ℝ))))
          (norm2 ((dot ((0 : ℝ), (1 : ℝ)) ((1 : ℝ), (1 : ℝ)) / norm2 ((0 : ℝ), (1 : ℝ)) ^ 2) •
            ((0 : ℝ), (1 : ℝ)) - ((1 : ℝ), (1 : ℝ))))) :=
  ⟨⟨by norm_num [Prod.ext_iff], by norm_num [Prod.ext_iff]⟩,
   C7_exhaust_vector_min ((1 : ℝ), (1 : ℝ)) ((1 : ℝ), (0 : ℝ)) ((0 : ℝ), (1 : ℝ))
     (by norm_num [Prod.ext_iff]) (by norm_num [Prod.ext_iff])⟩

/-- Claim C8: with an empty constraint set (and a destination distinct
from the current position), `compute_heading` returns the unit vector
toward the destination — in particular of norm 1, not rescaled to the
agent's current speed. -/
theorem C8_empty_constraints_unit_heading (solver : Aircraft → Vec) (a : Aircraft)
    (h : a.semi_plan = []) (hne : a.destination ≠ a.position) :
    compute_heading solver a =
      sdiv (a.destination - a.position) (norm2 (a.destination - a.position)) ∧
    norm2 (compute_heading solver a) = 1 := by
  have h1 : compute_heading solver a =
      sdiv (a.destination - a.position) (norm2 (a.destination - a.position)) := by
    rw [compute_heading, if_pos h]
  refine ⟨h1, ?_⟩
  rw [h1, norm2_sdiv_norm]
  exact sub_ne_zero.2 hne

/-- Witness for C8 at a concrete aircraft with empty constraint set. -/
theorem C8_empty_constraints_unit_heading_witness :
    (acA.semi_plan = [] ∧ acA.destination ≠ acA.position) ∧
    (compute_heading solver0 acA =
        sdiv (acA.destination - acA.position) (norm2 (acA.destination - acA.position)) ∧
      norm2 (compute_heading solver0 acA) = 1) :=
  ⟨⟨rfl, by norm_num [acA, Prod.ext_iff]⟩,
   C8_empty_constraints_unit_heading solver0 acA rfl (by norm_num [acA, Prod.ext_iff])⟩

/-- Claim C9: each step adds to `separation_losses` exactly the number
of unordered pairs whose post-move distance is strictly less than `d`
(pairs at distance exactly `d` are not counted), so the counter never
decreases. -/
theorem C9_separation_losses (solver : Aircraft → Vec) (s : Simulation) :
    (run_one_step solver s).1.separation_losses =
      s.separation_losses + lossPairs s.d (run_one_step solver s).1.aircraft ∧
    s.separation_losses ≤ (run_one_step solver s).1.separation_losses := by
  have h : (run_one_step solver s).1.separation_losses =
      s.separation_losses + countLossesFrom s.d (run_one_step solver s).1.aircraft := rfl
  rw [h, countLossesFrom_eq_lossPairs]
  exact ⟨rfl, Nat.le_add_right _ _⟩

/-- Claim C10: for aircraft at distinct positions and positive `d` and
`tau`, the conflict flag is symmetric in the two aircraft. -/
theorem C10_detect_conflict_symmetric (a b : Aircraft) (d tau : ℝ)
    (hpos : a.position ≠ b.position) (hd : 0 < d) (htau : 0 < tau) :
    ((detect_conflict a b d tau).1 ↔ (detect_conflict b a d tau).1) :=
  (detect_conflict_symm_flag a b d tau).symm

/-- Witness for C10 at the concrete pair `acA`, `acB` with `d = 2`,
`tau = 1`. -/
theorem C10_detect_conflict_symmetric_witness :
    (acA.position ≠ acB.position ∧ (0 : ℝ) < 2 ∧ (0 : ℝ) < 1) ∧
    ((detect_conflict acA acB 2 1).1 ↔ (detect_conflict acB acA 2 1).1) :=
  ⟨⟨by norm_num [acA, acB, Prod.ext_iff], by norm_num, by norm_num⟩,
   C10_detect_conflict_symmetric acA acB 2 1
     (by norm_num [acA, acB, Prod.ext_iff]) (by norm_num) (by norm_num)⟩

/-- Claim C4 (amended): a single-agent run flies the straight ray
toward its destination, but because the no-conflict heading is the
unit vector, the per-step travel is `time_step * 1` regardless of the
initial speed: with `D = |dest - pos| > 3`, `0 < ts <= 6`, the first
`ceil((D-3)/ts)` steps return `done = false`, the step after that
returns `done = true` with the agent within distance 3, and `alerts`
stays 0 for the whole run. -/
theorem C4_single_agent_run (solver : Aircraft → Vec) (pos h0 dest : Vec)
    (d tau ts : ℝ) (hD : 3 < norm2 (dest - pos)) (hts : 0 < ts) (hts6 : ts ≤ 6) :
    (∀ k : ℕ, k ≤ Nat.ceil ((norm2 (dest - pos) - 3) / ts) →
      (afterSteps solver (singleSim pos h0 dest d tau ts) k).aircraft.map
        (fun a => a.position) =
        [pos + ((k : ℝ) * ts) • sdiv (dest - pos) (norm2 (dest - pos))]) ∧
    (∀ k : ℕ, k < Nat.ceil ((norm2 (dest - pos) - 3) / ts) →
      ¬ (run_one_step solver (afterSteps solver (singleSim pos h0 dest d tau ts) k)).2) ∧
    (run_one_step solver (afterSteps solver (singleSim pos h0 dest d tau ts)
        (Nat.ceil ((norm2 (dest - pos) - 3) / ts)))).2 ∧
    (∀ k : ℕ, (afterSteps solver (singleSim pos h0 dest d tau ts) k).alerts = 0) ∧
    norm2 (dest - (pos + ((Nat.ceil ((norm2 (dest - pos) - 3) / ts) : ℝ) * ts) •
      sdiv (dest - pos) (norm2 (dest - pos)))) ≤ 3 := by
  have hne : dest - pos ≠ 0 := by
    intro h
    rw [h, show norm2 (0 : Vec) = 0 from (norm2_eq_zero_iff 0).2 rfl] at hD
    linarith
  have hfar : ∀ j : ℕ, j < Nat.ceil ((norm2 (dest - pos) - 3) / ts) →
      3 < norm2 (dest - pos) - (j : ℝ) * ts := by
    intro j hj
    have h1 : (j : ℝ) < (norm2 (dest - pos) - 3) / ts := Nat.lt_ceil.1 hj
    have h2 : (j : ℝ) * ts < norm2 (dest - pos) - 3 := (lt_div_iff hts).1 h1
    linarith
  have hinv : ∀ k : ℕ, k ≤ Nat.ceil ((norm2 (dest - pos) - 3) / ts) →
      afterSteps solver (singleSim pos h0 dest d tau ts) k =
      { aircraft := [⟨pos + ((k : ℝ) * ts) • sdiv (dest - pos) (norm2 (dest - pos)),
                     [pos] ++ (List.range k).map
                       (fun i => pos +
                         (((i : ℝ) + 1) * ts) • sdiv (dest - pos) (norm2 (dest - pos))),
                     if k = 0 then h0 else sdiv (dest - pos) (norm2 (dest - pos)),
                     dest, []⟩],
        d := d, tau := tau, time_step := ts, time := (k : ℝ) * ts, stepCount := k,
        alerts := 0, separation_losses := 0 } := fun k hk =>
    single_agent_invariant solver pos dest h0 d tau ts hne k
      (fun j hj => hfar j (lt_of_lt_of_le hj hk))
  have hub : norm2 (dest - pos) - 3 ≤
      (Nat.ceil ((norm2 (dest - pos) - 3) / ts) : ℝ) * ts := by
    have h1 := Nat.le_ceil ((norm2 (dest - pos) - 3) / ts)
    exact (div_le_iff hts).1 h1
  have hlb : (Nat.ceil ((norm2 (dest - pos) - 3) / ts) : ℝ) * ts <
      norm2 (dest - pos) + 3 := by
    have h1 : (Nat.ceil ((norm2 (dest - pos) - 3) / ts) : ℝ) <
        (norm2 (dest - pos) - 3) / ts + 1 :=
      Nat.ceil_lt_add_one (div_nonneg (by linarith) (le_of_lt hts))
    have h2 := mul_lt_mul_of_pos_right h1 hts
    rw [add_mul, div_mul_cancel₀ _ (ne_of_gt hts), one_mul] at h2
    linarith
  refine ⟨?_, ?_, ?_, ?_, ?_⟩
  · intro k hk
    rw [hinv k hk]
    simp
  · intro k hk
    rw [hinv k (le_of_lt hk), run_one_step_single_done solver _ _ rfl]
    simp only [reached_destination]
    show ¬ norm2 (dest - (pos + ((k : ℝ) * ts) • sdiv (dest - pos) (norm2 (dest - pos)))) ≤ 3
    rw [norm2_dest_sub_ray pos dest hne]
    have h3 := hfar k hk
    rw [abs_of_pos (by linarith)]
    linarith
  · rw [hinv _ le_rfl, run_one_step_single_done solver _ _ rfl]
    simp only [reached_destination]
    show norm2 (dest - (pos + ((Nat.ceil ((norm2 (dest - pos) - 3) / ts) : ℝ) * ts) •
      sdiv (dest - pos) (norm2 (dest - pos)))) ≤ 3
    rw [norm2_dest_sub_ray pos dest hne, abs_le]
    constructor <;> linarith
  · intro k
    exact ((single_agent_alerts solver (singleSim pos h0 dest d tau ts) _ rfl k).1).trans rfl
  · rw [norm2_dest_sub_ray pos dest hne, abs_le]
    constructor <;> linarith

/-- Witness for C4 at a concrete single-agent simulation: start at the
origin, destination 20 units away, `time_step = 3`. -/
theorem C4_single_agent_run_witness :
    (3 < norm2 (((20 : ℝ), (0 : ℝ)) - ((0 : ℝ), (0 : ℝ))) ∧ (0 : ℝ) < 3 ∧ (3 : ℝ) ≤ 6) ∧
    ((∀ k : ℕ, k ≤ Nat.ceil ((norm2 (((20 : ℝ), (0 : ℝ)) - ((0 : ℝ), (0 : ℝ))) - 3) / 3) →
      (afterSteps solver0 (singleSim ((0 : ℝ), (0 : ℝ)) ((2 : ℝ), (0 : ℝ))
          ((20 : ℝ), (0 : ℝ)) 1000 3 3) k).aircraft.map (fun a => a.position) =
        [((0 : ℝ), (0 : ℝ)) + ((k : ℝ) * 3) •
          sdiv (((20 : ℝ), (0 : ℝ)) - ((0 : ℝ), (0 : ℝ)))
            (norm2 (((20 : ℝ), (0 : ℝ)) - ((0 : ℝ), (0 : ℝ))))]) ∧
    (∀ k : ℕ, k < Nat.ceil ((norm2 (((20 : ℝ), (0 : ℝ)) - ((0 : ℝ), (0 : ℝ))) - 3) / 3) →
      ¬ (run_one_step solver0 (afterSteps solver0 (singleSim ((0 : ℝ), (0 : ℝ))
          ((2 : ℝ), (0 : ℝ)) ((20 : ℝ), (0 : ℝ)) 1000 3 3) k)).2) ∧
    (run_one_step solver0 (afterSteps solver0 (singleSim ((0 : ℝ), (0 : ℝ))
        ((2 : ℝ), (0 : ℝ)) ((20 : ℝ), (0 : ℝ)) 1000 3 3)
        (Nat.ceil ((norm2 (((20 : ℝ), (0 : ℝ)) - ((0 : ℝ), (0 : ℝ))) - 3) / 3)))).2 ∧
    (∀ k : ℕ, (afterSteps solver0 (singleSim ((0 : ℝ), (0 : ℝ)) ((2 : ℝ), (0 : ℝ))
        ((20 : ℝ), (0 : ℝ)) 1000 3 3) k).alerts = 0) ∧
    norm2 (((20 : ℝ), (0 : ℝ)) - (((0 : ℝ), (0 : ℝ)) +
      ((Nat.ceil ((norm2 (((20 : ℝ), (0 : ℝ)) - ((0 : ℝ), (0 : ℝ))) - 3) / 3) : ℝ) * 3) •
      sdiv (((20 : ℝ), (0 : ℝ)) - ((0 : ℝ), (0 : ℝ)))
        (norm2 (((20 : ℝ), (0 : ℝ)) - ((0 : ℝ), (0 : ℝ)))))) ≤ 3) :=
  ⟨⟨by
      rw [show ((20 : ℝ), (0 : ℝ)) - ((0 : ℝ), (0 : ℝ)) = ((20 : ℝ), (0 : ℝ)) from by
        norm_num [Prod.mk_sub_mk], norm2_axis]
      norm_num, by norm_num, by norm_num⟩,
   C4_single_agent_run solver0 ((0 : ℝ), (0 : ℝ)) ((2 : ℝ), (0 : ℝ)) ((20 : ℝ), (0 : ℝ))
     1000 3 3
     (by
       rw [show ((20 : ℝ), (0 : ℝ)) - ((0 : ℝ), (0 : ℝ)) = ((20 : ℝ), (0 : ℝ)) from by
         norm_num [Prod.mk_sub_mk], norm2_axis]
       norm_num)
     (by norm_num) (by norm_num)⟩

/-- Claim C4 counterexample: for the same concrete run the claimed step
count `ceil(|dest - pos| / (time_step * |heading|))` evaluates to 4,
but after 4 steps the agent is at `(12, 0)`, still 8 units from its
destination, and step 4 returned `done = false`: the claimed formula
fails because the flown heading is unit-normalized, not speed `2`. -/
theorem C4_counterexample :
    Nat.ceil (norm2 (((20 : ℝ), (0 : ℝ)) - ((0 : ℝ), (0 : ℝ))) /
        (3 * norm2 ((2 : ℝ), (0 : ℝ)))) = 4 ∧
    ¬ (run_one_step solver0 (afterSteps solver0
        (singleSim ((0 : ℝ), (0 : ℝ)) ((2 : ℝ), (0 : ℝ)) ((20 : ℝ), (0 : ℝ)) 1000 3 3) 3)).2 ∧
    (afterSteps solver0
        (singleSim ((0 : ℝ), (0 : ℝ)) ((2 : ℝ), (0 : ℝ)) ((20 : ℝ), (0 : ℝ)) 1000 3 3)
        4).aircraft.map (fun a => a.position) = [((12 : ℝ), (0 : ℝ))] ∧
    ¬ norm2 (((20 : ℝ), (0 : ℝ)) - ((12 : ℝ), (0 : ℝ))) ≤ 3 := by
  have hsub : ((20 : ℝ), (0 : ℝ)) - ((0 : ℝ), (0 : ℝ)) = ((20 : ℝ), (0 : ℝ)) := by
    norm_num [Prod.mk_sub_mk]
  have hD20 : norm2 (((20 : ℝ), (0 : ℝ)) - ((0 : ℝ), (0 : ℝ))) = 20 := by
    rw [hsub, norm2_axis]
    norm_num
  have hne : ((20 : ℝ), (0 : ℝ)) - ((0 : ℝ), (0 : ℝ)) ≠ 0 := by
    rw [hsub]
    norm_num [Prod.ext_iff]
  have hfar : ∀ j : ℕ, j < 4 →
      3 < norm2 (((20 : ℝ), (0 : ℝ)) - ((0 : ℝ), (0 : ℝ))) - (j : ℝ) * 3 := by
    intro j hj
    rw [hD20]
    interval_cases j <;> norm_num
  have hinv3 := single_agent_invariant solver0 ((0 : ℝ), (0 : ℝ)) ((20 : ℝ), (0 : ℝ))
      ((2 : ℝ), (0 : ℝ)) 1000 3 3 hne 3 (fun j hj => hfar j (by omega))
  have hinv4 := single_agent_invariant solver0 ((0 : ℝ), (0 : ℝ)) ((20 : ℝ), (0 : ℝ))
      ((2 : ℝ), (0 : ℝ)) 1000 3 3 hne 4 (fun j hj => hfar j hj)
  refine ⟨?_, ?_, ?_, ?_⟩
  · rw [hD20, show norm2 ((2 : ℝ), (0 : ℝ)) = 2 from by rw [norm2_axis]; norm_num,
      show (20 : ℝ) / (3 * 2) = 10 / 3 from by norm_num,
      Nat.ceil_eq_iff (by norm_num)]
    norm_num
  · rw [hinv3, run_one_step_single_done solver0 _ _ rfl]
    simp only [reached_destination]
    norm_num [sdiv, Prod.mk_sub_mk, Prod.mk_add_mk, Prod.smul_mk, smul_eq_mul, norm2_axis]
  · rw [hinv4]
    norm_num [sdiv, Prod.mk_sub_mk, Prod.mk_add_mk, Prod.smul_mk, smul_eq_mul,
      norm2_axis, Prod.ext_iff]
  · rw [show ((20 : ℝ), (0 : ℝ)) - ((12 : ℝ), (0 : ℝ)) = ((8 : ℝ), (0 : ℝ)) from by
      norm_num [Prod.mk_sub_mk], norm2_axis]
    norm_num

/-- Claim C1 (amended): during the pairwise scan, every conflicting
pair `(self, other)` with exhaust vector `c` appends to `self` exactly
the half-plane `(c, c . -(self.heading + c/2))` and to `other` exactly
the half-plane `(-c, threshold_other)` — but with
`threshold_other = c . (other.heading - c/2)`, not
`(-c) . (other.heading - c/2)` as the specification claims; a pair
without a detected conflict appends nothing to either member. -/
theorem C1_semi_plan_accumulation (self : Aircraft) (pending : List Aircraft)
    (d tau : ℝ) :
    innerScan self pending d tau =
      ({ self with semi_plan := self.semi_plan ++
          (pending.map fun b =>
            if (detect_conflict self b d tau).1 then
              [codeSelfPlane self (exhaust_vector (detect_conflict self b d tau).2.1
                (detect_conflict self b d tau).2.2.1 (detect_conflict self b d tau).2.2.2)]
            else []).flatten },
       pending.map fun b =>
         { b with semi_plan := b.semi_plan ++
            (if (detect_conflict self b d tau).1 then
              [codeOtherPlane b (exhaust_vector (detect_conflict self b d tau).2.1
                (detect_conflict self b d tau).2.2.1 (detect_conflict self b d tau).2.2.2)]
            else []) },
       (pending.map fun b => if (detect_conflict self b d tau).1 then 1 else 0).sum) := by
  rw [innerScan_eq]
  have h1 : ∀ b : Aircraft, (compute_semi_plan self b d tau).1 =
      if (detect_conflict self b d tau).1 then
        [codeSelfPlane self (exhaust_vector (detect_conflict self b d tau).2.1
          (detect_conflict self b d tau).2.2.1 (detect_conflict self b d tau).2.2.2)]
      else [] := by
    intro b
    rw [compute_semi_plan]
    by_cases hc : (detect_conflict self b d tau).1
    · rw [if_pos hc, if_pos hc]
      rfl
    · rw [if_neg hc, if_neg hc]
  have h2 : ∀ b : Aircraft, (compute_semi_plan self b d tau).2 =
      if (detect_conflict self b d tau).1 then
        [codeOtherPlane b (exhaust_vector (detect_conflict self b d tau).2.1
          (detect_conflict self b d tau).2.2.1 (detect_conflict self b d tau).2.2.2)]
      else [] := by
    intro b
    rw [compute_semi_plan]
    by_cases hc : (detect_conflict self b d tau).1
    · rw [if_pos hc, if_pos hc]
      rfl
    · rw [if_neg hc, if_neg hc]
  simp only [h1, h2]

/-- Claim C1 counterexample: at the concrete conflicting pair
`(acA, acB)` with `d = 2`, `tau = 1`, the exhaust vector is `(-1, 1)`
and the source appends for `other` the half-plane `((1,-1), -1)`;
the specification's formula `(-c) . (other.heading - c/2)` demands
threshold `1` instead, and `-1` is not `1`. -/
theorem C1_counterexample :
    (detect_conflict acA acB 2 1).1 ∧
    exhaust_vector (detect_conflict acA acB 2 1).2.1 (detect_conflict acA acB 2 1).2.2.1
      (detect_conflict acA acB 2 1).2.2.2 = ((-1 : ℝ), (1 : ℝ)) ∧
    (compute_semi_plan acA acB 2 1).2 = [(((1 : ℝ), (-1 : ℝ)), (-1 : ℝ))] ∧
    claimedOtherPlane acB ((-1 : ℝ), (1 : ℝ)) = (((1 : ℝ), (-1 : ℝ)), (1 : ℝ)) ∧
    (-1 : ℝ) ≠ (1 : ℝ) := by
  have hrel : relPos acA acB = ((2 : ℝ), (0 : ℝ)) := by
    norm_num [relPos, acA, acB, Prod.mk_sub_mk, Prod.mk.injEq]
  have hvr : relVel acA acB = ((2 : ℝ), (0 : ℝ)) := by
    norm_num [relVel, acA, acB, Prod.mk_sub_mk, Prod.mk.injEq]
  have hro : norm2 (relPos acA acB) = 2 := by
    rw [hrel, norm2_axis]
    norm_num
  have hang : coneAngle acA acB 2 = Real.pi / 4 := by
    rw [coneAngle, hro]
    norm_num [Real.arctan_one]
  have hcos : Real.cos (coneAngle acA acB 2) = Real.sqrt 2 / 2 := by
    rw [hang, Real.cos_pi_div_four]
  have hsin : Real.sin (coneAngle acA acB 2) = Real.sqrt 2 / 2 := by
    rw [hang, Real.sin_pi_div_four]
  have ht1 : tangent1 acA acB 2 = (Real.sqrt 2, Real.sqrt 2) := by
    rw [tangent1, hcos, hsin, hrel]
    simp only [Prod.ext_iff]
    constructor <;> ring
  have ht2 : tangent2 acA acB 2 = (Real.sqrt 2, -Real.sqrt 2) := by
    rw [tangent2, hcos, hsin, hrel]
    simp only [Prod.ext_iff]
    constructor <;> ring
  have hgeom : (detect_conflict acA acB 2 1).2 =
      (((2 : ℝ), (0 : ℝ)), (Real.sqrt 2, Real.sqrt 2), (Real.sqrt 2, -Real.sqrt 2)) := by
    simp only [detect_conflict]
    rw [hvr, ht1, ht2]
  have hconf : (detect_conflict acA acB 2 1).1 := by
    simp only [detect_conflict]
    have epoint : (acA.position + relVel acA acB) - acA.position = ((2 : ℝ), (0 : ℝ)) := by
      rw [add_sub_cancel_left, hvr]
    have eab : acB.position - acA.position = ((2 : ℝ), (0 : ℝ)) := hrel
    refine ⟨?_, Or.inl ?_⟩
    · rw [is_inside_the_cone, epoint, eab, ht1, ht2]
      exact ⟨mul_self_nonneg _, mul_self_nonneg _⟩
    · rw [hvr, hrel]
      norm_num [is_inside_the_circle, sdiv]
  have hss : Real.sqrt 2 * Real.sqrt 2 = 2 := Real.mul_self_sqrt (by norm_num)
  have hs2 : Real.sqrt 2 ^ 2 = 2 := Real.sq_sqrt (by norm_num)
  have hn1 : norm2 (Real.sqrt 2, Real.sqrt 2) = 2 := by
    rw [norm2]
    simp only []
    rw [show Real.sqrt 2 ^ 2 + Real.sqrt 2 ^ 2 = 4 from by rw [hs2]; norm_num,
      show (4 : ℝ) = 2 ^ 2 from by norm_num, Real.sqrt_sq (by norm_num : (0 : ℝ) ≤ 2)]
  have hn2 : norm2 (Real.sqrt 2, -Real.sqrt 2) = 2 := by
    rw [norm2]
    simp only []
    rw [show Real.sqrt 2 ^ 2 + (-Real.sqrt 2) ^ 2 = 4 from by rw [neg_sq, hs2]; norm_num,
      show (4 : ℝ) = 2 ^ 2 from by norm_num, Real.sqrt_sq (by norm_num : (0 : ℝ) ≤ 2)]
  have hd1 : dot (Real.sqrt 2, Real.sqrt 2) ((2 : ℝ), (0 : ℝ)) = 2 * Real.sqrt 2 := by
    rw [dot]
    ring
  have hd2 : dot (Real.sqrt 2, -Real.sqrt 2) ((2 : ℝ), (0 : ℝ)) = 2 * Real.sqrt 2 := by
    rw [dot]
    ring
  have hu1 : (dot (Real.sqrt 2, Real.sqrt 2) ((2 : ℝ), (0 : ℝ)) /
        norm2 (Real.sqrt 2, Real.sqrt 2) ^ 2) • ((Real.sqrt 2, Real.sqrt 2) : Vec) -
      ((2 : ℝ), (0 : ℝ)) = ((-1 : ℝ), (1 : ℝ)) := by
    rw [hd1, hn1]
    simp only [Prod.ext_iff, Prod.smul_mk, smul_eq_mul, Prod.mk_sub_mk]
    constructor
    · linear_combination (1 / 2) * hss
    · linear_combination (1 / 2) * hss
  have hu2 : (dot (Real.sqrt 2, -Real.sqrt 2) ((2 : ℝ), (0 : ℝ)) /
        norm2 (Real.sqrt 2, -Real.sqrt 2) ^ 2) • ((Real.sqrt 2, -Real.sqrt 2) : Vec) -
      ((2 : ℝ), (0 : ℝ)) = ((-1 : ℝ), (-1 : ℝ)) := by
    rw [hd2, hn2]
    simp only [Prod.ext_iff, Prod.smul_mk, smul_eq_mul, Prod.mk_sub_mk]
    constructor
    · linear_combination (1 / 2) * hss
    · linear_combination (-1 / 2) * hss
  have hnc1 : norm2 ((-1 : ℝ), (1 : ℝ)) = Real.sqrt 2 := by
    rw [norm2]
    norm_num
  have hnc2 : norm2 ((-1 : ℝ), (-1 : ℝ)) = Real.sqrt 2 := by
    rw [norm2]
    norm_num
  have hexh : exhaust_vector ((2 : ℝ), (0 : ℝ)) (Real.sqrt 2, Real.sqrt 2)
      (Real.sqrt 2, -Real.sqrt 2) = ((-1 : ℝ), (1 : ℝ)) := by
    rw [exhaust_vector, hu1, hu2, hnc1, hnc2, if_pos (le_refl _), if_neg (lt_irrefl _)]
    norm_num [Prod.ext_iff, Prod.smul_mk, smul_eq_mul, Prod.mk_add_mk]
  have hg1 : (detect_conflict acA acB 2 1).2.1 = ((2 : ℝ), (0 : ℝ)) := by rw [hgeom]
  have hg2 : (detect_conflict acA acB 2 1).2.2.1 = (Real.sqrt 2, Real.sqrt 2) := by
    rw [hgeom]
  have hg3 : (detect_conflict acA acB 2 1).2.2.2 = (Real.sqrt 2, -Real.sqrt 2) := by
    rw [hgeom]
  have hsemi : (compute_semi_plan acA acB 2 1).2 = [(((1 : ℝ), (-1 : ℝ)), (-1 : ℝ))] := by
    rw [compute_semi_plan, if_pos hconf, hg1, hg2, hg3, hexh]
    norm_num [dot, sdiv, acA, acB, Prod.ext_iff, Prod.mk_add_mk, Prod.mk_sub_mk,
      Prod.neg_mk]
  refine ⟨hconf, ?_, hsemi, ?_, by norm_num⟩
  · rw [hg1, hg2, hg3]
    exact hexh
  · rw [claimedOtherPlane]
    norm_num [dot, sdiv, acB, Prod.ext_iff, Prod.mk_sub_mk, Prod.neg_mk]

end CSORCA
